import Mathlib

/-!
Shallow embedding of the `davidsbond/plugin` repository (Go).

The repository implements a gRPC-based plugin system: a host process spawns a
plugin binary, dials it over a UNIX socket, performs a `Stat` handshake, and
then executes named commands whose inputs and outputs travel as protobuf
`Any` envelopes.

The embedding translates the hand-written Go of `plugin.go` (the generic
`Command` adapter, `startPlugin`, `Use`, `Plugin.Close`, `Plugin.Exec`),
`internal/plugin/api.go` (the server-side `API.Stat` / `API.Execute`) and the
client half of `internal/plugin` (`Client.Execute`).  Protobuf messages are a
closed inductive `Msg`; a Go dynamic type is a `GoType` tag; the protobuf
`Any` envelope is `AnyPB`; Go `error` values on the plugin side are `GoError`
(a tag modelling the dynamic error type plus the `Error()` text, so that
flattening structure to text is observable); host-side errors are the `HErr`
tree with `errors.Join` / `fmt.Errorf("%w", ...)` wrapping and an
`errors.Is`-style traversal.  External effects reached by `Use` / `Close`
(process start, gRPC dial, the remote `Stat`, connection close, SIGTERM
delivery) are supplied as an outcome environment, and the operations also
return the list of side-effecting actions they attempted, so that claims of
the form "cleanup was attempted" are statable.
-/

/-- Execution context passed to handlers (Go `context.Context`); opaque to
this library, so modelled as `Unit`. -/
abbrev Ctx := Unit

/-- Closed universe of protobuf message values appearing in the repository
(`wrapperspb.StringValue`, `durationpb.Duration`, `timestamppb.Timestamp`). -/
inductive Msg where
  | str (s : String)
  | dur (n : Int)
  | ts (n : Int)
deriving DecidableEq

/-- The Go dynamic (concrete pointer) type of a protobuf message: the tag a
type assertion `message.(Input)` or `anypb` type URL check compares. -/
inductive GoType where
  | tString
  | tDuration
  | tTimestamp
deriving DecidableEq

/-- Dynamic type of a message value. -/
def Msg.typeOf : Msg → GoType
  | .str _ => .tString
  | .dur _ => .tDuration
  | .ts _ => .tTimestamp

/-- Go `error` values produced on the plugin side.  `custom` carries a `tag`
modelling the error's dynamic type / identity and its `Error()` text;
`errInvalidInputType` is the error built by `Command.Execute`'s
`fmt.Errorf("invalid input type for command %q", ...)`;
`errUnmarshal` and `errMismatchedType` are errors surfaced by the
`anypb` envelope operations. -/
inductive GoError where
  | errInvalidInputType (cmdName : String)
  | errUnmarshal (msg : String)
  | errMismatchedType
  | custom (tag : Nat) (msg : String)
deriving DecidableEq

/-- Go's `%q` verb on the plain strings appearing in this code base. -/
def goQuote (s : String) : String := "\"" ++ s ++ "\""

/-- The `Error()` text of a plugin-side Go error. -/
def GoError.text : GoError → String
  | .errInvalidInputType c => "invalid input type for command " ++ goQuote c
  | .errUnmarshal m => m
  | .errMismatchedType => "mismatched message type"
  | .custom _ m => m

/-- A protobuf `Any` envelope: either a well-formed wrapping of a message, or
bytes that fail to unmarshal. -/
inductive AnyPB where
  | wraps (m : Msg)
  | malformed (msg : String)
deriving DecidableEq

/-- `anypb.Any.UnmarshalNew`: decode the envelope into a freshly allocated
message of its declared type; fails if the envelope is malformed. -/
def AnyPB.unmarshalNew : AnyPB → Except GoError Msg
  | .wraps m => .ok m
  | .malformed s => .error (.errUnmarshal s)

/-- `anypb.New`: wrap a message into an envelope.  Fallible in Go; for the
in-memory messages of the closed universe it always succeeds, which the model
records by always returning `ok` while keeping the `Except` shape of the
call sites. -/
def anypbNew (m : Msg) : Except GoError AnyPB := .ok (.wraps m)

/-- `anypb.Any.UnmarshalTo`: decode the envelope into an existing message of
dynamic type `t`; fails if the envelope is malformed or wraps a message of a
different type. -/
def AnyPB.unmarshalTo (a : AnyPB) (t : GoType) : Except GoError Msg :=
  match a with
  | .malformed s => .error (.errUnmarshal s)
  | .wraps m => if m.typeOf = t then .ok m else .error .errMismatchedType

/-- The `Command[Input, Output]` type of `plugin.go`, type-erased: the generic
parameters `Input` and `Output` become the `inputType` / `outputType` tags and
`Run` becomes `run` on the message universe. -/
structure Command where
  use : String
  inputType : GoType
  outputType : GoType
  run : Ctx → Msg → Except GoError Msg

/-- `Command.Name`. -/
def Command.name (ch : Command) : String := ch.use

/-- `Command.Execute` (plugin.go lines 79-101): unmarshal the input envelope,
assert it has the declared input type, invoke `Run`, wrap the result. -/
def Command.executeAny (ch : Command) (ctx : Ctx) (input : AnyPB) :
    Except GoError AnyPB :=
  match input.unmarshalNew with
  | .error e => .error e
  | .ok message =>
    if message.typeOf = ch.inputType then
      match ch.run ctx message with
      | .error e => .error e
      | .ok output =>
        match anypbNew output with
        | .error e => .error e
        | .ok out => .ok out
    else
      .error (.errInvalidInputType ch.use)

/-- A type-erased command handler, the value type of Go's `CommandHandlers`
map (`func(ctx, *anypb.Any) (*anypb.Any, error)`). -/
abbrev Handler := Ctx → AnyPB → Except GoError AnyPB

/-- The `CommandHandlers` map, modelled as an association list with Go map
assignment semantics (`mapInsert` replaces an existing key). -/
abbrev CommandHandlers := List (String × Handler)

/-- Go map assignment `m[k] = v`: replace the binding if the key is present,
otherwise add it. -/
def mapInsert {V : Type} (m : List (String × V)) (k : String) (v : V) :
    List (String × V) :=
  if ∃ p ∈ m, p.1 = k then
    m.map (fun p => if p.1 = k then (k, v) else p)
  else
    m ++ [(k, v)]

/-- Go map read `m[k]`. -/
def mapLookup {V : Type} (m : List (String × V)) (k : String) : Option V :=
  match m with
  | [] => none
  | p :: rest => if p.1 = k then some p.2 else mapLookup rest k

/-- The keys of a map. -/
def mapKeys {V : Type} (m : List (String × V)) : List String :=
  m.map (fun p => p.1)

/-- The `plugin.Info` struct: plugin metadata served by `Stat`. -/
structure Info where
  name : String
  version : String
  commands : List String
deriving DecidableEq

/-- One step of `startPlugin`'s loop over `config.Commands`
(plugin.go lines 140-143): insert the command's `Execute` into the handler
map and append its name to `info.Commands`. -/
def buildStep (acc : CommandHandlers × List String) (c : Command) :
    CommandHandlers × List String :=
  (mapInsert acc.1 c.use c.executeAny, acc.2 ++ [c.use])

/-- The registry and command-name list `startPlugin` builds from the
configured commands (plugin.go lines 139-143). -/
def buildState (cmds : List Command) : CommandHandlers × List String :=
  cmds.foldl buildStep ([], [])

/-- gRPC status codes used by the repository. -/
inductive Code where
  | invalidArgument
  | notFound
  | internal
  | unknown
deriving DecidableEq

/-- A gRPC status error: code plus message text; this is all that crosses the
host/plugin boundary, so a handler error's structured identity cannot. -/
structure Status where
  code : Code
  message : String
deriving DecidableEq

/-- The wire `ExecuteRequest`. -/
structure ExecuteRequest where
  name : String
  input : AnyPB
deriving DecidableEq

/-- The wire `ExecuteResponse`. -/
structure ExecuteResponse where
  output : AnyPB
deriving DecidableEq

/-- The wire `StatResponse`. -/
structure StatResponse where
  name : String
  version : String
  commands : List String
deriving DecidableEq

/-- The server-side `API` of `internal/plugin/api.go`: static info plus the
handler registry. -/
structure API where
  info : Info
  handlers : CommandHandlers

/-- `API.Stat` (api.go lines 51-57): always succeeds and copies the cached
info fields into the response. -/
def API.stat (api : API) : Except Status StatResponse :=
  .ok { name := api.info.name
        version := api.info.version
        commands := api.info.commands }

/-- `API.Execute` (api.go lines 61-77): reject an empty name with
`InvalidArgument`, an unregistered name with `NotFound`, wrap a handler error
as `Internal` carrying only its text, otherwise return the handler's output
envelope. -/
def API.execute (api : API) (ctx : Ctx) (request : ExecuteRequest) :
    Except Status ExecuteResponse :=
  if request.name = "" then
    .error { code := .invalidArgument, message := "missing command name" }
  else
    match mapLookup api.handlers request.name with
    | none =>
      .error { code := .notFound
               message := "unknown command " ++ goQuote request.name }
    | some handler =>
      match handler ctx request.input with
      | .error e => .error { code := .internal, message := e.text }
      | .ok output => .ok { output := output }

/-- The Go `Execute` method never assigns to its receiver's fields, so its
state-passing translation returns the receiver unchanged next to the
response. -/
def API.executeStep (api : API) (ctx : Ctx) (request : ExecuteRequest) :
    API × Except Status ExecuteResponse :=
  (api, api.execute ctx request)

/-- The server state after serving a sequence of `Execute` requests. -/
def API.executeMany (api : API) (ctx : Ctx) (reqs : List ExecuteRequest) :
    API :=
  reqs.foldl (fun a r => (a.executeStep ctx r).1) api

/-- The API `startPlugin` registers: info built from the config's name, the
build version, and the collected command names; handlers from the loop. -/
def startState (pluginName version : String) (cmds : List Command) : API :=
  { info := { name := pluginName
              version := version
              commands := (buildState cmds).2 }
    handlers := (buildState cmds).1 }

/-- Errors seen by the host-side `Client.Execute`: a gRPC status error coming
back from the remote call, or a local error from envelope handling. -/
inductive ClientErr where
  | grpc (st : Status)
  | goErr (e : GoError)
deriving DecidableEq

/-- `Client.Execute` (internal/plugin client): wrap the input in an envelope,
issue the remote `Execute` (modelled as invoking the server `api` across a
faithful transport that delivers status errors), and unmarshal the response
envelope into the caller's output message of dynamic type `outType`. -/
def clientExecute (api : API) (ctx : Ctx) (name : String) (input : Msg)
    (outType : GoType) : Except ClientErr Msg :=
  match anypbNew input with
  | .error e => .error (.goErr e)
  | .ok i =>
    match api.execute ctx { name := name, input := i } with
    | .error st => .error (.grpc st)
    | .ok response =>
      match response.output.unmarshalTo outType with
      | .error e => .error (.goErr e)
      | .ok m => .ok m

/-- Host-side Go `error` values: the two sentinels of `plugin.go`
(`ErrUnexpectedName`, `ErrUnknownCommand`), plain `errors.New` /
remote-message errors, `fmt.Errorf("...%w...")` wrapping, `errors.Join` of
two non-nil errors, and an embedded plugin-side error. -/
inductive HErr where
  | errUnexpectedName
  | errUnknownCommand
  | prim (msg : String)
  | wrap (msg : String) (inner : HErr)
  | joined (a b : HErr)
  | goErr (e : GoError)
deriving DecidableEq, BEq

/-- `errors.Is`: compare, then walk the unwrap chain (`fmt.Errorf` wrapping
unwraps to its inner error, `errors.Join` to both parts). -/
def errorsIs (err target : HErr) : Bool :=
  err == target ||
  match err with
  | .wrap _ inner => errorsIs inner target
  | .joined a b => errorsIs a target || errorsIs b target
  | _ => false

/-- `errors.Join` on possibly-nil errors: nils are dropped; the result is nil
only when every argument is nil. -/
def joinOpt (a b : Option HErr) : Option HErr :=
  match a, b with
  | none, none => none
  | some ea, none => some ea
  | none, some eb => some eb
  | some ea, some eb => some (.joined ea eb)

/-- `Plugin.Exec` (plugin.go lines 268-284): map a `NotFound` status to a
wrap of `ErrUnknownCommand` carrying the name; any other status error to a
plain error holding only the remote message; a non-status error is returned
unchanged; on success the decoded output is the result. -/
def hostExec (api : API) (ctx : Ctx) (name : String) (input : Msg)
    (outType : GoType) : Except HErr Msg :=
  match clientExecute api ctx name input outType with
  | .ok m => .ok m
  | .error (.grpc st) =>
    if st.code = .notFound then
      .error (.wrap (goQuote name) .errUnknownCommand)
    else
      .error (.prim st.message)
  | .error (.goErr e) => .error (.goErr e)

/-- Go `filepath.Base` restricted to slash-separated paths: empty path gives
".", trailing separators are stripped, the last element is returned, and a
path of only separators gives "/". -/
def filepathBase (path : String) : String :=
  if path = "" then "."
  else
    let stripped := (path.toList.reverse.dropWhile (fun c => c = '/')).reverse
    let last := (stripped.reverse.takeWhile (fun c => c ≠ '/')).reverse
    if last = [] then "/" else String.mk last

/-- The externally visible side-effecting actions `Use` and `Close` can
attempt: starting the subprocess, constructing the gRPC client, the remote
`Stat` call, closing the client connection, and signalling SIGTERM to the
subprocess. -/
inductive HostAction where
  | startProc
  | dial
  | statCall
  | closeClient
  | signalTerm
deriving DecidableEq

/-- Outcomes of the external effects `Use` and `Close` reach: `none` means
the effect succeeds, `some e` that it fails with `e`; `statResult` is the
remote `Stat` round trip. -/
structure UseEnv where
  startErr : Option HErr
  dialErr : Option HErr
  statResult : Except HErr Info
  closeClientErr : Option HErr
  signalErr : Option HErr

/-- `Plugin.Close` (plugin.go lines 246-257): close the client when one
exists, then signal the process when one exists; each result is
`errors.Join`ed into the accumulated error, so neither step is skipped when
the other fails.  Returns the combined error and the actions attempted. -/
def pluginClose (env : UseEnv) (hasClient hasProcess : Bool) :
    Option HErr × List HostAction :=
  let clientPart : Option HErr × List HostAction :=
    if hasClient then (env.closeClientErr, [.closeClient]) else (none, [])
  let processPart : Option HErr × List HostAction :=
    if hasProcess then (env.signalErr, [.signalTerm]) else (none, [])
  (joinOpt clientPart.1 processPart.1, clientPart.2 ++ processPart.2)

/-- A constructed plugin handle: `Use`'s successful result. -/
structure PluginHandle where
  hasClient : Bool
  hasProcess : Bool
  info : Info
deriving DecidableEq

/-- `Use` (plugin.go lines 200-242): start the binary; on start failure fail
wrapped.  Dial the client; on dial failure fail wrapped (without any
cleanup, as in the source).  After the fixed wait, call `Stat`; on failure
`errors.Join` `p.Close()`'s result with the failure.  Compare the reported
name to `filepathBase path`; on mismatch fail with a wrap of
`ErrUnexpectedName` carrying both names (without any cleanup, as in the
source).  Otherwise cache the info.  Also returns the attempted actions. -/
def useRun (env : UseEnv) (path : String) :
    Except HErr PluginHandle × List HostAction :=
  match env.startErr with
  | some e =>
    (.error (.wrap ("failed to start plugin at " ++ goQuote path) e),
     [.startProc])
  | none =>
    let name := filepathBase path
    match env.dialErr with
    | some e =>
      (.error (.wrap ("failed to dial plugin " ++ goQuote name) e),
       [.startProc, .dial])
    | none =>
      match env.statResult with
      | .error e =>
        let closed := pluginClose env true true
        (.error (match joinOpt closed.1 (some e) with
                 | some j => j
                 | none => e),
         [.startProc, .dial, .statCall] ++ closed.2)
      | .ok info =>
        if info.name ≠ name then
          (.error (.wrap ("expected " ++ goQuote name ++ ", got " ++
                          goQuote info.name) .errUnexpectedName),
           [.startProc, .dial, .statCall])
        else
          (.ok { hasClient := true, hasProcess := true, info := info },
           [.startProc, .dial, .statCall])

theorem mapLookup_map_update {V : Type} (m : List (String × V)) (k : String)
    (v : V) (h : ∃ p ∈ m, p.1 = k) :
    mapLookup (m.map (fun p => if p.1 = k then (k, v) else p)) k = some v := by
  induction m with
  | nil => simp at h
  | cons p rest ih =>
    by_cases hp : p.1 = k
    · simp [mapLookup, hp]
    · simp only [List.mem_cons, exists_eq_or_imp, hp, false_or] at h
      simp only [List.map, hp, if_false, mapLookup]
      exact ih h

theorem mapLookup_map_update_ne {V : Type} (m : List (String × V))
    (k k' : String) (v : V) (h : k' ≠ k) :
    mapLookup (m.map (fun p => if p.1 = k then (k, v) else p)) k' =
      mapLookup m k' := by
  induction m with
  | nil => rfl
  | cons p rest ih =>
    by_cases hp : p.1 = k
    · simp [mapLookup, hp, Ne.symm h, ih]
    · simp only [List.map, hp, if_false, mapLookup]
      by_cases hq : p.1 = k'
      · simp [hq]
      · simp [hq, ih]

theorem mapLookup_append_self {V : Type} (m : List (String × V)) (k : String)
    (v : V) (h : ¬ ∃ p ∈ m, p.1 = k) :
    mapLookup (m ++ [(k, v)]) k = some v := by
  induction m with
  | nil => simp [mapLookup]
  | cons p rest ih =>
    simp only [List.mem_cons, exists_eq_or_imp, not_or] at h
    simp only [List.cons_append, mapLookup, h.1, if_false]
    exact ih h.2

theorem mapLookup_append_ne {V : Type} (m : List (String × V)) (k k' : String)
    (v : V) (h : k' ≠ k) :
    mapLookup (m ++ [(k, v)]) k' = mapLookup m k' := by
  induction m with
  | nil => simp [mapLookup, Ne.symm h]
  | cons p rest ih =>
    by_cases hq : p.1 = k'
    · simp [mapLookup, hq]
    · simp [mapLookup, hq, ih]

theorem mapLookup_insert_self {V : Type} (m : List (String × V)) (k : String)
    (v : V) : mapLookup (mapInsert m k v) k = some v := by
  unfold mapInsert
  by_cases h : ∃ p ∈ m, p.1 = k
  · simpa [h] using mapLookup_map_update m k v h
  · simp only [h, if_false]
    exact mapLookup_append_self m k v h

theorem mapLookup_insert_ne {V : Type} (m : List (String × V)) (k k' : String)
    (v : V) (h : k' ≠ k) :
    mapLookup (mapInsert m k v) k' = mapLookup m k' := by
  unfold mapInsert
  by_cases hc : ∃ p ∈ m, p.1 = k
  · simpa [hc] using mapLookup_map_update_ne m k k' v h
  · simp only [hc, if_false]
    exact mapLookup_append_ne m k k' v h

theorem mapKeys_map_update {V : Type} (m : List (String × V)) (k : String)
    (v : V) :
    mapKeys (m.map (fun p => if p.1 = k then (k, v) else p)) = mapKeys m := by
  induction m with
  | nil => rfl
  | cons p rest ih =>
    by_cases hp : p.1 = k
    · simp only [mapKeys, List.map, hp, if_true] at ih ⊢
      exact congrArg _ ih
    · simp only [mapKeys, List.map, hp, if_false] at ih ⊢
      exact congrArg _ ih

theorem mapKeys_insert_nodup {V : Type} (m : List (String × V)) (k : String)
    (v : V) (h : (mapKeys m).Nodup) : (mapKeys (mapInsert m k v)).Nodup := by
  unfold mapInsert
  by_cases hc : ∃ p ∈ m, p.1 = k
  · simpa [hc, mapKeys_map_update] using h
  · have hk : k ∉ mapKeys m := by
      intro hmem
      obtain ⟨p, hp, hp1⟩ := List.mem_map.mp hmem
      exact hc ⟨p, hp, hp1⟩
    simp only [hc, if_false, mapKeys, List.map_append]
    rw [List.nodup_append]
    refine ⟨h, List.nodup_singleton k, ?_⟩
    intro a ha hb
    simp only [List.map_cons, List.map_nil, List.mem_singleton] at hb
    exact hk (hb ▸ ha)

/-- The last command in the list carrying the given name, if any: the
descriptor whose handler survives `startPlugin`'s loop when names repeat. -/
def lastWith : List Command → String → Option Command
  | [], _ => none
  | c :: rest, n =>
    match lastWith rest n with
    | some c' => some c'
    | none => if c.use = n then some c else none

theorem lastWith_sound (cmds : List Command) (n : String) (c' : Command)
    (h : lastWith cmds n = some c') : c' ∈ cmds ∧ c'.use = n := by
  induction cmds with
  | nil => cases h
  | cons d rest ih =>
    simp only [lastWith] at h
    cases hr : lastWith rest n with
    | some c2 =>
      rw [hr] at h
      cases h
      obtain ⟨h1, h2⟩ := ih hr
      exact ⟨List.mem_cons_of_mem d h1, h2⟩
    | none =>
      rw [hr] at h
      by_cases hd : d.use = n
      · rw [if_pos hd] at h
        injection h with h2
        subst h2
        exact ⟨List.mem_cons_self d rest, hd⟩
      · rw [if_neg hd] at h
        cases h

theorem lastWith_isSome (cmds : List Command) (n : String) :
    (∃ c ∈ cmds, c.use = n) → ∃ c', lastWith cmds n = some c' := by
  induction cmds with
  | nil =>
    rintro ⟨c, hc, -⟩
    cases hc
  | cons d rest ih =>
    rintro ⟨c, hc, hn⟩
    cases hr : lastWith rest n with
    | some c' => exact ⟨c', by simp [lastWith, hr]⟩
    | none =>
      rcases List.mem_cons.mp hc with h | h
      · subst h
        exact ⟨c, by simp [lastWith, hr, hn]⟩
      · obtain ⟨c', hc'⟩ := ih ⟨c, h, hn⟩
        rw [hr] at hc'
        cases hc' 

theorem mapLookup_foldl_build (cmds : List Command)
    (acc : CommandHandlers × List String) (n : String) :
    mapLookup (cmds.foldl buildStep acc).1 n =
      match lastWith cmds n with
      | some c => some c.executeAny
      | none => mapLookup acc.1 n := by
  induction cmds generalizing acc with
  | nil => rfl
  | cons c rest ih =>
    rw [List.foldl_cons, ih]
    cases h : lastWith rest n with
    | some c' => simp [lastWith, h]
    | none =>
      simp only [lastWith, h]
      by_cases hc : c.use = n
      · simp only [hc, if_true, buildStep]
        rw [← hc]
        exact mapLookup_insert_self acc.1 c.use c.executeAny
      · simp only [hc, if_false, buildStep]
        exact mapLookup_insert_ne acc.1 c.use n c.executeAny (fun h2 => hc h2.symm)

/-- Registry lookup in the built state is last-write-wins over the
configured commands. -/
theorem mapLookup_buildState (cmds : List Command) (n : String) :
    mapLookup (buildState cmds).1 n = (lastWith cmds n).map Command.executeAny := by
  rw [buildState, mapLookup_foldl_build]
  cases h : lastWith cmds n <;> simp [mapLookup]

theorem buildState_snd_aux (cmds : List Command)
    (acc : CommandHandlers × List String) :
    (cmds.foldl buildStep acc).2 = acc.2 ++ cmds.map Command.use := by
  induction cmds generalizing acc with
  | nil => simp
  | cons c rest ih =>
    rw [List.foldl_cons, ih]
    simp [buildStep, Command.use]

/-- The command-name list `startPlugin` reports is the configured names in
configuration order. -/
theorem buildState_snd (cmds : List Command) :
    (buildState cmds).2 = cmds.map Command.use := by
  rw [buildState, buildState_snd_aux]
  rfl

theorem buildState_keys_nodup_aux (cmds : List Command)
    (acc : CommandHandlers × List String) (h : (mapKeys acc.1).Nodup) :
    (mapKeys (cmds.foldl buildStep acc).1).Nodup := by
  induction cmds generalizing acc with
  | nil => exact h
  | cons c rest ih =>
    rw [List.foldl_cons]
    exact ih _ (mapKeys_insert_nodup acc.1 c.use c.executeAny h)

/-- The built registry never holds two entries for the same name. -/
theorem buildState_keys_nodup (cmds : List Command) :
    (mapKeys (buildState cmds).1).Nodup :=
  buildState_keys_nodup_aux cmds ([], []) List.nodup_nil

theorem executeMany_id (api : API) (ctx : Ctx) (reqs : List ExecuteRequest) :
    api.executeMany ctx reqs = api := by
  induction reqs with
  | nil => rfl
  | cons r rest ih => exact ih

/-- A sample command: input `StringValue`, handler answers `"pong"`. -/
def cmdEcho : Command :=
  ⟨"echo", .tString, .tString, fun _ _ => .ok (Msg.str "pong")⟩

/-- A sample command whose handler always fails with a structured error. -/
def cmdBoom : Command :=
  ⟨"boom", .tString, .tString, fun _ _ => .error (.custom 7 "boom")⟩

/-- A sample command registered under the empty name. -/
def cmdEmptyName : Command :=
  ⟨"", .tString, .tString, fun _ _ => .ok (Msg.str "out")⟩

/-- Two sample commands sharing one name with distinguishable handlers. -/
def cmdPingOne : Command :=
  ⟨"ping", .tString, .tString, fun _ _ => .ok (Msg.str "one")⟩

/-- The second command of the duplicate-name pair. -/
def cmdPingTwo : Command :=
  ⟨"ping", .tString, .tString, fun _ _ => .ok (Msg.str "two")⟩

/-- C2: for every request to the server-side `Execute`: an empty command
name fails with `InvalidArgument`; a non-empty unregistered name fails with
`NotFound`; a handler error fails with `Internal` whose message is exactly
the handler error's text (only the string form of the error survives);
otherwise the handler's output envelope is returned unchanged. -/
theorem api_execute_contract (api : API) (ctx : Ctx)
    (request : ExecuteRequest) :
    (request.name = "" →
      api.execute ctx request =
        .error { code := .invalidArgument
                 message := "missing command name" }) ∧
    (request.name ≠ "" → mapLookup api.handlers request.name = none →
      api.execute ctx request =
        .error { code := .notFound
                 message := "unknown command " ++ goQuote request.name }) ∧
    (∀ hl e, request.name ≠ "" →
      mapLookup api.handlers request.name = some hl →
      hl ctx request.input = .error e →
      api.execute ctx request =
        .error { code := .internal, message := e.text }) ∧
    (∀ hl out, request.name ≠ "" →
      mapLookup api.handlers request.name = some hl →
      hl ctx request.input = .ok out →
      api.execute ctx request = .ok { output := out }) := by
  refine ⟨?_, ?_, ?_, ?_⟩
  · intro h
    simp [API.execute, h]
  · intro h1 h2
    simp [API.execute, h1, h2]
  · intro hl e h1 h2 h3
    simp [API.execute, h1, h2, h3]
  · intro hl out h1 h2 h3
    simp [API.execute, h1, h2, h3]

/-- Concrete instantiation of the C2 contract: the four verdicts of
`API.Execute` on a two-command registry. -/
theorem api_execute_contract_witness :
    (startState "p" "v" [cmdEcho, cmdBoom]).execute ()
        { name := "", input := .wraps (Msg.str "x") } =
      .error { code := .invalidArgument, message := "missing command name" } ∧
    (startState "p" "v" [cmdEcho, cmdBoom]).execute ()
        { name := "missing", input := .wraps (Msg.str "x") } =
      .error { code := .notFound
               message := "unknown command " ++ goQuote "missing" } ∧
    (startState "p" "v" [cmdEcho, cmdBoom]).execute ()
        { name := "boom", input := .wraps (Msg.str "x") } =
      .error { code := .internal, message := (GoError.custom 7 "boom").text } ∧
    (startState "p" "v" [cmdEcho, cmdBoom]).execute ()
        { name := "echo", input := .wraps (Msg.str "x") } =
      .ok { output := .wraps (Msg.str "pong") } := by
  refine ⟨?_, ?_, ?_, ?_⟩
  · exact (api_execute_contract (startState "p" "v" [cmdEcho, cmdBoom]) ()
      { name := "", input := .wraps (Msg.str "x") }).1 rfl
  · exact (api_execute_contract (startState "p" "v" [cmdEcho, cmdBoom]) ()
      { name := "missing", input := .wraps (Msg.str "x") }).2.1
      (by decide) rfl
  · exact (api_execute_contract (startState "p" "v" [cmdEcho, cmdBoom]) ()
      { name := "boom", input := .wraps (Msg.str "x") }).2.2.1
      cmdBoom.executeAny (.custom 7 "boom") (by decide) rfl rfl
  · exact (api_execute_contract (startState "p" "v" [cmdEcho, cmdBoom]) ()
      { name := "echo", input := .wraps (Msg.str "x") }).2.2.2
      cmdEcho.executeAny (.wraps (Msg.str "pong")) (by decide) rfl rfl

/-- C7: `Stat` never fails and returns the cached info fields verbatim, and
no sequence of `Execute` calls changes the server's info or handler map, so
`Stat` answers identically before and after any interleaving of `Execute`
calls. -/
theorem stat_invariant_under_execute (api : API) (ctx : Ctx)
    (reqs : List ExecuteRequest) :
    api.stat = .ok { name := api.info.name
                     version := api.info.version
                     commands := api.info.commands } ∧
    (api.executeMany ctx reqs).info = api.info ∧
    (api.executeMany ctx reqs).handlers = api.handlers ∧
    (api.executeMany ctx reqs).stat = api.stat := by
  rw [executeMany_id]
  exact ⟨rfl, rfl, rfl, rfl⟩

/-- C8: building the runtime state yields a registry whose keys carry no
duplicates, in which every configured command name is mapped to the adapter
of some configured command carrying that name, and an info command list
equal to the configured names in configuration order. -/
theorem build_registry_invariants (cmds : List Command) :
    (mapKeys (buildState cmds).1).Nodup ∧
    (∀ c ∈ cmds, ∃ c', c' ∈ cmds ∧ c'.use = c.use ∧
      mapLookup (buildState cmds).1 c.use = some c'.executeAny) ∧
    (buildState cmds).2 = cmds.map Command.use := by
  refine ⟨buildState_keys_nodup cmds, ?_, buildState_snd cmds⟩
  intro c hc
  obtain ⟨c', hc'⟩ := lastWith_isSome cmds c.use ⟨c, hc, rfl⟩
  obtain ⟨h1, h2⟩ := lastWith_sound cmds c.use c' hc'
  refine ⟨c', h1, h2, ?_⟩
  rw [mapLookup_buildState, hc']
  rfl

/-- Concrete instantiation of the C8 registry invariant on a two-command
configuration. -/
theorem build_registry_invariants_witness :
    ∃ c', c' ∈ [cmdEcho, cmdBoom] ∧ c'.use = cmdEcho.use ∧
      mapLookup (buildState [cmdEcho, cmdBoom]).1 cmdEcho.use =
        some c'.executeAny :=
  (build_registry_invariants [cmdEcho, cmdBoom]).2.1 cmdEcho
    (List.mem_cons_self cmdEcho [cmdBoom])

/-- C10: duplicate command names are not rejected: registry lookup returns
the last matching descriptor's adapter, while the info command list keeps
one entry per descriptor (its length is the descriptor count), so the
metadata can report the same name more than once. -/
theorem build_duplicate_names_last_wins (cmds : List Command) (n : String) :
    mapLookup (buildState cmds).1 n =
      (lastWith cmds n).map Command.executeAny ∧
    (buildState cmds).2 = cmds.map Command.use ∧
    ((buildState cmds).2).length = cmds.length ∧
    (∀ c₁ c₂ : Command, c₁.use = c₂.use →
      (buildState [c₁, c₂]).2 = [c₁.use, c₂.use] ∧
      mapLookup (buildState [c₁, c₂]).1 c₁.use = some c₂.executeAny) := by
  refine ⟨mapLookup_buildState cmds n, buildState_snd cmds, ?_, ?_⟩
  · rw [buildState_snd]
    exact List.length_map cmds Command.use
  · intro c₁ c₂ h
    constructor
    · rw [buildState_snd]
      rfl
    · rw [mapLookup_buildState]
      have hl : lastWith [c₁, c₂] c₁.use = some c₂ := by
        simp [lastWith, h]
      rw [hl]
      rfl

/-- Concrete instantiation of C10: two commands named "ping"; the reported
list holds the name twice and lookup finds the second handler. -/
theorem build_duplicate_names_last_wins_witness :
    (buildState [cmdPingOne, cmdPingTwo]).2 = ["ping", "ping"] ∧
    mapLookup (buildState [cmdPingOne, cmdPingTwo]).1 "ping" =
      some cmdPingTwo.executeAny :=
  (build_duplicate_names_last_wins [cmdPingOne, cmdPingTwo] "ping").2.2.2
    cmdPingOne cmdPingTwo rfl

/-- C9: the generic command adapter fails without invoking the handler when
the input envelope cannot be decoded or decodes to a value of the wrong
concrete input type (the outcome is the same for any two handlers), and a
handler error is propagated as exactly the same error value, unwrapped. -/
theorem command_adapter_guards (u : String) (it ot : GoType)
    (r r' : Ctx → Msg → Except GoError Msg) (ctx : Ctx) (a : AnyPB) :
    ((∃ e, a.unmarshalNew = .error e) ∨
        (∃ m, a.unmarshalNew = .ok m ∧ m.typeOf ≠ it) →
      (∃ e, Command.executeAny ⟨u, it, ot, r⟩ ctx a = .error e) ∧
      Command.executeAny ⟨u, it, ot, r⟩ ctx a =
        Command.executeAny ⟨u, it, ot, r'⟩ ctx a) ∧
    (∀ m e, a.unmarshalNew = .ok m → m.typeOf = it → r ctx m = .error e →
      Command.executeAny ⟨u, it, ot, r⟩ ctx a = .error e) := by
  constructor
  · intro h
    cases a with
    | malformed s => exact ⟨⟨.errUnmarshal s, rfl⟩, rfl⟩
    | wraps m =>
      have hne : ¬ m.typeOf = it := by
        rcases h with ⟨e, he⟩ | ⟨m', hm', hne⟩
        · simp [AnyPB.unmarshalNew] at he
        · simp only [AnyPB.unmarshalNew, Except.ok.injEq] at hm'
          subst hm'
          exact hne
      constructor
      · exact ⟨.errInvalidInputType u,
          by simp [Command.executeAny, AnyPB.unmarshalNew, hne]⟩
      · simp [Command.executeAny, AnyPB.unmarshalNew, hne]
  · intro m e h1 h2 h3
    cases a with
    | malformed s => simp [AnyPB.unmarshalNew] at h1
    | wraps m2 =>
      simp only [AnyPB.unmarshalNew, Except.ok.injEq] at h1
      subst h1
      simp [Command.executeAny, AnyPB.unmarshalNew, h2, h3]

/-- Concrete instantiation of C9: a wrong-type envelope fails identically
for two different handlers, and a handler failure comes back as the very
same error value. -/
theorem command_adapter_guards_witness :
    (∃ e, Command.executeAny ⟨"echo", .tString, .tString,
        fun _ _ => .ok (Msg.str "pong")⟩ () (.wraps (Msg.dur 5)) =
      .error e) ∧
    Command.executeAny ⟨"echo", .tString, .tString,
        fun _ _ => .ok (Msg.str "pong")⟩ () (.wraps (Msg.dur 5)) =
      Command.executeAny ⟨"echo", .tString, .tString,
        fun _ _ => .error (.custom 1 "other")⟩ () (.wraps (Msg.dur 5)) ∧
    Command.executeAny ⟨"boom", .tString, .tString,
        fun _ _ => .error (.custom 7 "boom")⟩ () (.wraps (Msg.str "x")) =
      .error (.custom 7 "boom") := by
  have h1 := (command_adapter_guards "echo" .tString .tString
    (fun _ _ => .ok (Msg.str "pong")) (fun _ _ => .error (.custom 1 "other"))
    () (.wraps (Msg.dur 5))).1 (Or.inr ⟨Msg.dur 5, rfl, by decide⟩)
  have h2 := (command_adapter_guards "boom" .tString .tString
    (fun _ _ => .error (.custom 7 "boom")) (fun _ _ => .error (.custom 7 "boom"))
    () (.wraps (Msg.str "x"))).2 (Msg.str "x") (.custom 7 "boom") rfl rfl rfl
  exact ⟨h1.1, h1.2, h2⟩

/-- C3: `Plugin.Exec` maps a remote `NotFound` status to a wrap of
`ErrUnknownCommand` carrying the command name (so `errors.Is` finds the
sentinel); any other status failure to a plain error holding only the remote
message text; a success yields the envelope decoded into the caller's output
type; and an empty name yields the plain `InvalidArgument` message text,
which does not satisfy `errors.Is` on `ErrUnknownCommand`. -/
theorem host_exec_error_mapping (api : API) (ctx : Ctx) (name : String)
    (input : Msg) (outType : GoType) :
    (∀ st, clientExecute api ctx name input outType = .error (.grpc st) →
      st.code = .notFound →
      hostExec api ctx name input outType =
        .error (.wrap (goQuote name) .errUnknownCommand) ∧
      ∀ e, hostExec api ctx name input outType = .error e →
        errorsIs e .errUnknownCommand = true) ∧
    (∀ st, clientExecute api ctx name input outType = .error (.grpc st) →
      st.code ≠ .notFound →
      hostExec api ctx name input outType = .error (.prim st.message)) ∧
    (∀ m, clientExecute api ctx name input outType = .ok m →
      hostExec api ctx name input outType = .ok m) ∧
    (hostExec api ctx "" input outType =
        .error (.prim "missing command name") ∧
      ∀ e, hostExec api ctx "" input outType = .error e →
        errorsIs e .errUnknownCommand = false) := by
  refine ⟨?_, ?_, ?_, ?_⟩
  · intro st h hc
    have hm : hostExec api ctx name input outType =
        .error (.wrap (goQuote name) .errUnknownCommand) := by
      simp [hostExec, h, hc]
    refine ⟨hm, ?_⟩
    intro e he
    rw [hm] at he
    injection he with h2
    subst h2
    rfl
  · intro st h hc
    simp [hostExec, h, hc]
  · intro m h
    simp [hostExec, h]
  · have hm : hostExec api ctx "" input outType =
        .error (.prim "missing command name") := by
      simp [hostExec, clientExecute, API.execute, anypbNew]
    refine ⟨hm, ?_⟩
    intro e he
    rw [hm] at he
    injection he with h2
    subst h2
    rfl

/-- Concrete instantiation of C3 on a two-command registry: the four
host-side verdicts of `Exec`. -/
theorem host_exec_error_mapping_witness :
    hostExec (startState "p" "v" [cmdEcho, cmdBoom]) () "missing"
        (Msg.str "x") .tString =
      .error (.wrap (goQuote "missing") .errUnknownCommand) ∧
    hostExec (startState "p" "v" [cmdEcho, cmdBoom]) () "boom"
        (Msg.str "x") .tString = .error (.prim "boom") ∧
    hostExec (startState "p" "v" [cmdEcho, cmdBoom]) () "echo"
        (Msg.str "x") .tString = .ok (Msg.str "pong") ∧
    hostExec (startState "p" "v" [cmdEcho, cmdBoom]) () ""
        (Msg.str "x") .tString = .error (.prim "missing command name") := by
  refine ⟨?_, ?_, ?_, ?_⟩
  · exact ((host_exec_error_mapping (startState "p" "v" [cmdEcho, cmdBoom]) ()
      "missing" (Msg.str "x") .tString).1
      { code := .notFound, message := "unknown command " ++ goQuote "missing" }
      rfl rfl).1
  · exact (host_exec_error_mapping (startState "p" "v" [cmdEcho, cmdBoom]) ()
      "boom" (Msg.str "x") .tString).2.1
      { code := .internal, message := "boom" } rfl (by decide)
  · exact (host_exec_error_mapping (startState "p" "v" [cmdEcho, cmdBoom]) ()
      "echo" (Msg.str "x") .tString).2.2.1 (Msg.str "pong") rfl
  · exact (host_exec_error_mapping (startState "p" "v" [cmdEcho, cmdBoom]) ()
      "" (Msg.str "x") .tString).2.2.2.1

/-- C1 as stated fails at a command registered under the empty name: the
command sits in the registry, the input has its declared concrete input
type, its handler succeeds, yet the end-to-end `Exec` errs, because the
server rejects the empty name before consulting the registry. -/
theorem exec_end_to_end_cex :
    mapLookup (buildState [cmdEmptyName]).1 cmdEmptyName.use =
      some cmdEmptyName.executeAny ∧
    (Msg.str "in").typeOf = cmdEmptyName.inputType ∧
    cmdEmptyName.run () (Msg.str "in") = .ok (Msg.str "out") ∧
    hostExec (startState "p" "v" [cmdEmptyName]) () cmdEmptyName.use
        (Msg.str "in") cmdEmptyName.outputType =
      .error (.prim "missing command name") :=
  ⟨rfl, rfl, rfl, rfl⟩

/-- C1 (amended to commands with a non-empty name): for every registered
command the registry dispatches to, and every input of its declared concrete
input type, the end-to-end `Exec` path yields exactly the handler's output,
and errs exactly when the handler errs (with the handler's error flattened
to its text). -/
theorem exec_end_to_end (cmds : List Command) (pname ver : String)
    (ch : Command) (ctx : Ctx) (m : Msg)
    (hname : ch.use ≠ "")
    (hreg : mapLookup (buildState cmds).1 ch.use = some ch.executeAny)
    (hin : m.typeOf = ch.inputType)
    (hwf : ∀ ctx' m' o, ch.run ctx' m' = .ok o → o.typeOf = ch.outputType) :
    hostExec (startState pname ver cmds) ctx ch.use m ch.outputType =
      match ch.run ctx m with
      | .ok o => .ok o
      | .error e => .error (.prim e.text) := by
  have hclient : clientExecute (startState pname ver cmds) ctx ch.use m
      ch.outputType =
      match ch.run ctx m with
      | .ok o => .ok o
      | .error e => .error (.grpc { code := .internal, message := e.text }) := by
    cases hrun : ch.run ctx m with
    | ok o =>
      have ho := hwf ctx m o hrun
      simp [clientExecute, anypbNew, API.execute, startState, hname, hreg,
            Command.executeAny, AnyPB.unmarshalNew, hin, hrun,
            AnyPB.unmarshalTo, ho]
    | error e =>
      simp [clientExecute, anypbNew, API.execute, startState, hname, hreg,
            Command.executeAny, AnyPB.unmarshalNew, hin, hrun]
  cases hrun : ch.run ctx m with
  | ok o =>
    rw [hrun] at hclient
    simp [hostExec, hclient]
  | error e =>
    rw [hrun] at hclient
    simp [hostExec, hclient]

/-- Concrete instantiation of the amended C1: the echo command's handler
output survives the full round trip. -/
theorem exec_end_to_end_witness :
    cmdEcho.use ≠ "" ∧
    hostExec (startState "p" "v" [cmdEcho]) () cmdEcho.use (Msg.str "ping")
      cmdEcho.outputType = .ok (Msg.str "pong") := by
  refine ⟨by decide, ?_⟩
  have hwf : ∀ ctx' m' o, cmdEcho.run ctx' m' = .ok o →
      o.typeOf = cmdEcho.outputType := by
    intro ctx' m' o h2
    simp only [cmdEcho] at h2
    injection h2 with h3
    subst h3
    rfl
  exact exec_end_to_end [cmdEcho] "p" "v" cmdEcho () (Msg.str "ping")
    (by decide) rfl rfl hwf

/-- C6: `Close` attempts the client close exactly when a client exists and
the termination signal exactly when a process exists, each for every outcome
of the other step; the returned error is the `errors.Join` of the two step
errors and is nil exactly when every attempted step succeeded. -/
theorem plugin_close_contract (env : UseEnv) (hasClient hasProcess : Bool) :
    (HostAction.closeClient ∈ (pluginClose env hasClient hasProcess).2 ↔
      hasClient = true) ∧
    (HostAction.signalTerm ∈ (pluginClose env hasClient hasProcess).2 ↔
      hasProcess = true) ∧
    (pluginClose env hasClient hasProcess).1 =
      joinOpt (if hasClient then env.closeClientErr else none)
        (if hasProcess then env.signalErr else none) ∧
    ((pluginClose env hasClient hasProcess).1 = none ↔
      ((hasClient = true → env.closeClientErr = none) ∧
       (hasProcess = true → env.signalErr = none))) := by
  cases hasClient <;> cases hasProcess <;>
    cases hcc : env.closeClientErr <;> cases hs : env.signalErr <;>
      simp [pluginClose, joinOpt, hcc, hs]

/-- An effect environment where both cleanup steps fail. -/
def envBothFail : UseEnv :=
  { startErr := none
    dialErr := none
    statResult := .ok { name := "n", version := "v", commands := [] }
    closeClientErr := some (.prim "close failed")
    signalErr := some (.prim "signal failed") }

/-- Concrete instantiation of C6: with both steps failing, both are still
attempted and both errors appear joined in the result. -/
theorem plugin_close_contract_witness :
    (pluginClose envBothFail true true).1 =
      some (.joined (.prim "close failed") (.prim "signal failed")) ∧
    HostAction.closeClient ∈ (pluginClose envBothFail true true).2 ∧
    HostAction.signalTerm ∈ (pluginClose envBothFail true true).2 := by
  have h := plugin_close_contract envBothFail true true
  refine ⟨?_, h.1.mpr rfl, h.2.1.mpr rfl⟩
  rw [h.2.2.1]
  rfl

/-- Effect environment for a name-mismatch handshake: start, dial and `Stat`
all succeed and the plugin reports the name "bar". -/
def envMismatch : UseEnv :=
  { startErr := none
    dialErr := none
    statResult := .ok { name := "bar", version := "v1", commands := [] }
    closeClientErr := none
    signalErr := none }

/-- Evaluation against C4: against path "/tmp/foo" whose base name "foo"
differs from the reported "bar", `Use` fails with a wrap of
`ErrUnexpectedName` carrying both names and returns no handle, but attempts
neither the client close nor the termination signal: the subprocess is left
running. -/
theorem use_name_mismatch_eval :
    (useRun envMismatch "/tmp/foo").1 =
      .error (.wrap ("expected " ++ goQuote "foo" ++ ", got " ++ goQuote "bar")
        .errUnexpectedName) ∧
    errorsIs (.wrap ("expected " ++ goQuote "foo" ++ ", got " ++ goQuote "bar")
      .errUnexpectedName) .errUnexpectedName = true ∧
    HostAction.closeClient ∉ (useRun envMismatch "/tmp/foo").2 ∧
    HostAction.signalTerm ∉ (useRun envMismatch "/tmp/foo").2 := by
  refine ⟨by rfl, by rfl, by decide, by decide⟩

/-- Effect environment where the client dial fails after a successful
process start. -/
def envDialFail : UseEnv :=
  { startErr := none
    dialErr := some (.prim "dial failed")
    statResult := .ok { name := "foo", version := "v1", commands := [] }
    closeClientErr := none
    signalErr := none }

/-- Effect environment where the handshake `Stat` fails and closing the
client connection also fails. -/
def envStatFail : UseEnv :=
  { startErr := none
    dialErr := none
    statResult := .error (.prim "stat failed")
    closeClientErr := some (.prim "close failed")
    signalErr := none }

/-- Evaluation against C5: on a dial failure after the subprocess start,
`Use` returns only the wrapped dial error and attempts no cleanup at all —
no termination signal for the started subprocess, nothing combined — while
on a `Stat` failure the claimed behaviour does hold: both cleanup steps are
attempted and the cleanup failure is combined with the original error. -/
theorem use_dial_failure_eval :
    (useRun envDialFail "/tmp/foo").1 =
      .error (.wrap ("failed to dial plugin " ++ goQuote "foo")
        (.prim "dial failed")) ∧
    HostAction.closeClient ∉ (useRun envDialFail "/tmp/foo").2 ∧
    HostAction.signalTerm ∉ (useRun envDialFail "/tmp/foo").2 ∧
    (useRun envStatFail "/tmp/foo").1 =
      .error (.joined (.prim "close failed") (.prim "stat failed")) ∧
    HostAction.closeClient ∈ (useRun envStatFail "/tmp/foo").2 ∧
    HostAction.signalTerm ∈ (useRun envStatFail "/tmp/foo").2 := by
  refine ⟨by rfl, by decide, by decide, by rfl, by decide, by decide⟩
